import Mathlib

/-!
# Verification of the 2D-to-3D aggregation engine of `analyze_3d.py`

Shallow embedding of the section interpolator (`_interp_section`, `interp_at`),
the span discretizer and the wing integrator (`analyze_3d`) of the repository.

Float model: IEEE doubles are embedded as `Option ℚ` where `none` plays the
role of NaN and `some q` a finite value.  On every code path modelled here the
program never produces an infinity (each division is guarded by a non-zero
denominator check in the source), so NaN propagation is the only absent-value
behaviour and `none`-propagation through `fadd`/`fsub`/`fmul`/`fdiv` models it
exactly (in IEEE arithmetic any operation with a NaN operand yields NaN, in
particular `0 * NaN = NaN`).  Decimal literals of the source (`1.225`,
`1.81e-5`, `1e-12`, ...) are embedded as the corresponding rationals; the
properties proved below depend only on their sign and coarse magnitude, never
on the last binary digit, and every counterexample was checked to also hold
under double rounding (the decisive gaps are of size ~1e-12, far above the
2^-53 relative rounding error of doubles).
-/

namespace Xfoil3D

/-- Addition of float values (`none` = NaN, propagated as in IEEE). -/
def fadd : Option ℚ → Option ℚ → Option ℚ
  | some a, some b => some (a + b)
  | _, _ => none

/-- Subtraction of float values (`none` = NaN, propagated as in IEEE). -/
def fsub : Option ℚ → Option ℚ → Option ℚ
  | some a, some b => some (a - b)
  | _, _ => none

/-- Multiplication of float values (`none` = NaN, propagated; `0 * NaN = NaN`). -/
def fmul : Option ℚ → Option ℚ → Option ℚ
  | some a, some b => some (a * b)
  | _, _ => none

/-- Division of float values.  Division by zero is mapped to `none`; on the
modelled code paths every division has a provably non-zero denominator, so
this case is never exercised. -/
def fdiv : Option ℚ → Option ℚ → Option ℚ
  | some a, some b => if b = 0 then none else some (a / b)
  | _, _ => none

/-- One row of `airfoil_polars.csv` (columns `Airfoil, Re, Alpha, CL, CD, CM`).
The coefficient columns may be NaN (solver non-convergence is tolerated), the
key columns `Re` and `Alpha` are finite numbers for every row the pipeline
produces. -/
structure PolarRow where
  airfoil : String
  Re : ℚ
  alpha : ℚ
  CL : Option ℚ
  CD : Option ℚ
  CM : Option ℚ
deriving DecidableEq

/-- Result triple of the section interpolator. -/
structure Coeffs where
  CL : Option ℚ
  CD : Option ℚ
  CM : Option ℚ
deriving DecidableEq

/-- The `(np.nan, np.nan, np.nan)` sentinel of `_interp_section`. -/
def noData : Coeffs := ⟨none, none, none⟩

/-- `sub = df[df["Airfoil"] == airfoil]` (line 28 of `analyze_3d.py`). -/
def subFor (rows : List PolarRow) (airfoil : String) : List PolarRow :=
  rows.filter (fun r => decide (r.airfoil = airfoil))

/-- Comparison used by `sort_values("Alpha")`. -/
def alphaLE (p q : PolarRow) : Prop := p.alpha ≤ q.alpha

instance : DecidableRel alphaLE := fun p q => inferInstanceAs (Decidable (p.alpha ≤ q.alpha))

instance : IsTotal PolarRow alphaLE := ⟨fun p q => le_total p.alpha q.alpha⟩

instance : IsTrans PolarRow alphaLE := ⟨fun _ _ _ h h2 => le_trans h h2⟩

/-- `dfr = sub[sub["Re"] == Rtarget].sort_values("Alpha")` (line 46). -/
def levelSorted (sub : List PolarRow) (Rtarget : ℚ) : List PolarRow :=
  List.insertionSort alphaLE (sub.filter (fun r => decide (r.Re = Rtarget)))

/-- Minimum of a list of finite values (`dfr["Alpha"].min()`); junk value `0`
on the empty list, which the source never queries. -/
def qmin : List ℚ → ℚ
  | [] => 0
  | [a] => a
  | a :: b :: t => min a (qmin (b :: t))

/-- Maximum of a list of finite values (`dfr["Alpha"].max()`). -/
def qmax : List ℚ → ℚ
  | [] => 0
  | [a] => a
  | a :: b :: t => max a (qmax (b :: t))

/-- `np.clip(x, lo, hi)`: the lower bound is applied first, the upper bound
last. -/
def clipQ (x lo hi : ℚ) : ℚ := min (max x lo) hi

/-- One interior segment of `np.interp`: slope form with numpy's NaN retry
(see `arr_interp` in numpy's `compiled_base.c`): compute
`slope*(x - x0) + y0`; if that is NaN try `slope*(x - x1) + y1`; if that is
still NaN and `y0 == y1` return `y0`.  Called only with `x0 < x < x1`. -/
def interpSegment (x x0 x1 : ℚ) (y0 y1 : Option ℚ) : Option ℚ :=
  match fadd (fmul (fdiv (fsub y1 y0) (some (x1 - x0))) (some (x - x0))) y0 with
  | some v => some v
  | none =>
    match fadd (fmul (fdiv (fsub y1 y0) (some (x1 - x0))) (some (x - x1))) y1 with
    | some v => some v
    | none =>
      match y0, y1 with
      | some a, some b => if a = b then some a else none
      | _, _ => none

/-- `np.interp x xs fp` over the (sorted) list of `(x, y)` sample points:
left fill below the grid, right fill above it, exact grid hits return the
stored value (numpy's `dx[j] == x_val` shortcut), otherwise the bracketing
segment interpolates.  For duplicated abscissae numpy's binary search picks
the largest index `j` with `dx[j] ≤ x`, which the recursion reproduces. -/
def npInterp (x : ℚ) : List (ℚ × Option ℚ) → Option ℚ
  | [] => none
  | [(_, y0)] => y0
  | (x0, y0) :: (x1, y1) :: rest =>
    if x < x0 then y0
    else if x1 ≤ x then npInterp x ((x1, y1) :: rest)
    else if x = x0 then y0
    else interpSegment x x0 x1 y0 y1

/-- `dfr["Alpha"].min()` for the rows of one Reynolds level. -/
def aminOf (sub : List PolarRow) (Rtarget : ℚ) : ℚ :=
  qmin ((levelSorted sub Rtarget).map (fun r => r.alpha))

/-- `dfr["Alpha"].max()` for the rows of one Reynolds level. -/
def amaxOf (sub : List PolarRow) (Rtarget : ℚ) : ℚ :=
  qmax ((levelSorted sub Rtarget).map (fun r => r.alpha))

/-- `interp_at(Rtarget)` (lines 45-53): select the rows of the level, sort
them by alpha, clamp the query alpha to the recorded alpha range, then
linearly interpolate each of CL, CD, CM at the clamped alpha. -/
def interp_at (sub : List PolarRow) (alpha Rtarget : ℚ) : Coeffs :=
  if levelSorted sub Rtarget = [] then noData
  else
    { CL := npInterp (clipQ alpha (aminOf sub Rtarget) (amaxOf sub Rtarget))
        ((levelSorted sub Rtarget).map (fun r => (r.alpha, r.CL)))
      CD := npInterp (clipQ alpha (aminOf sub Rtarget) (amaxOf sub Rtarget))
        ((levelSorted sub Rtarget).map (fun r => (r.alpha, r.CD)))
      CM := npInterp (clipQ alpha (aminOf sub Rtarget) (amaxOf sub Rtarget))
        ((levelSorted sub Rtarget).map (fun r => (r.alpha, r.CM))) }

/-- `res = np.unique(sub["Re"].values)` (line 33): the sorted distinct
Reynolds values recorded for the airfoil. -/
def distinctRes (rows : List PolarRow) (airfoil : String) : List ℚ :=
  (List.insertionSort (fun a b : ℚ => a ≤ b) ((subFor rows airfoil).map (fun r => r.Re))).dedup

/-- `np.searchsorted(res, Re)` with the default `side='left'`: the smallest
index `i` with `Re ≤ res[i]`, or `res.length` if there is none. -/
def searchsortedLeft (res : List ℚ) (x : ℚ) : Nat :=
  match res with
  | [] => 0
  | r :: rs => if x ≤ r then 0 else searchsortedLeft rs x + 1

/-- Selection of the bracketing pair `(Re_lo, Re_hi)` (lines 34-43); `idx`
of the source appears as `searchsortedLeft res Re`. -/
def bracketRe (res : List ℚ) (Re : ℚ) : ℚ × ℚ :=
  if searchsortedLeft res Re = 0 then
    (res.getD 0 0, res.getD (min 1 (res.length - 1)) 0)
  else if res.length ≤ searchsortedLeft res Re then
    if res.length = 1 then (res.getD 0 0, res.getD 0 0)
    else (res.getD (res.length - 2) 0, res.getD (res.length - 1) 0)
  else (res.getD (searchsortedLeft res Re - 1) 0, res.getD (searchsortedLeft res Re) 0)

/-- `1e-12`, the epsilon guard in the denominator of `t` (line 61). -/
def EPS : ℚ := 1 / 10 ^ 12

/-- `t = 0.0 if Re_hi == Re_lo else (Re - Re_lo) / (Re_hi - Re_lo + 1e-12)`
(line 61).  In the source `Re_hi ≥ Re_lo` always holds, so the denominator of
the second branch is strictly positive. -/
def blendT (ReLo ReHi Re : ℚ) : ℚ :=
  if ReHi = ReLo then 0 else (Re - ReLo) / (ReHi - ReLo + EPS)

/-- `(1 - t) * v_lo + t * v_hi` in float arithmetic (lines 62-64). -/
def blend (t : ℚ) (lo hi : Option ℚ) : Option ℚ :=
  fadd (fmul (some (1 - t)) lo) (fmul (some t) hi)

/-- Lines 58-65: the all-NaN early return followed by the Reynolds blend. -/
def blendCoeffs (t : ℚ) (lo hi : Coeffs) : Coeffs :=
  if lo = noData ∧ hi = noData then noData
  else ⟨blend t lo.CL hi.CL, blend t lo.CD hi.CD, blend t lo.CM hi.CM⟩

/-- `_interp_section(df, airfoil, Re, alpha)` (lines 27-65). -/
def interpSection (rows : List PolarRow) (airfoil : String) (Re alpha : ℚ) : Coeffs :=
  if subFor rows airfoil = [] then noData
  else
    blendCoeffs
      (blendT (bracketRe (distinctRes rows airfoil) Re).1
        (bracketRe (distinctRes rows airfoil) Re).2 Re)
      (interp_at (subFor rows airfoil) alpha (bracketRe (distinctRes rows airfoil) Re).1)
      (interp_at (subFor rows airfoil) alpha (bracketRe (distinctRes rows airfoil) Re).2)

/-! ## Flight constants and the wing integrator (`analyze_3d`, lines 11-158) -/

/-- `RHO = 1.225` kg/m^3 (line 11). -/
def RHO : ℚ := 1.225

/-- `MU = 1.81e-5` Pa s (line 12). -/
def MU : ℚ := 1.81e-5

/-- `VEL = 20.0` m/s (line 13). -/
def VEL : ℚ := 20.0

/-- `q = 0.5 * RHO * VEL**2` (line 14); named `qDyn` here because `q` is the
dynamic pressure, not a generic variable. -/
def qDyn : ℚ := 0.5 * RHO * VEL ^ 2

/-- Value of the float64 constant `np.pi` (exact binary64 rational). -/
def NP_PI : ℚ := 884279719003555 / 281474976710656

/-- `N_SPAN_SECTIONS = 31` (line 25). -/
def N_SPAN_SECTIONS : ℕ := 31

/-- `y = np.linspace(0.0, semi, N_SPAN_SECTIONS)` (line 96): station `i` sits
at `semi * i / (N-1)`. -/
def stationsY (semi : ℚ) : List ℚ :=
  (List.range N_SPAN_SECTIONS).map (fun i : ℕ => semi * (i : ℚ) / ((N_SPAN_SECTIONS : ℚ) - 1))

/-- `chord_y = c_root + (c_tip - c_root) * (y / semi) if semi > 0 else
np.full_like(y, c_root)` (line 97). -/
def chordY (semi c_root c_tip : ℚ) : List ℚ :=
  if 0 < semi then (stationsY semi).map (fun yi => c_root + (c_tip - c_root) * (yi / semi))
  else (stationsY semi).map (fun _ => c_root)

/-- `twist_y = twist_root + (twist_tip - twist_root) * (y / semi) if semi > 0
else np.zeros_like(y)` (line 102).  Note the degenerate branch is all zeros,
not `twist_root`. -/
def twistY (semi twist_root twist_tip : ℚ) : List ℚ :=
  if 0 < semi then
    (stationsY semi).map (fun yi => twist_root + (twist_tip - twist_root) * (yi / semi))
  else (stationsY semi).map (fun _ => 0)

/-- `dy = semi / (N_SPAN_SECTIONS - 1) if N_SPAN_SECTIONS > 1 else semi`
(line 105). -/
def dyOf (semi : ℚ) : ℚ :=
  if 1 < N_SPAN_SECTIONS then semi / ((N_SPAN_SECTIONS : ℚ) - 1) else semi

/-- The strip width entering the quadrature at each station: `dS = chord_y * dy`
(line 106) multiplies every one of the `N_SPAN_SECTIONS` station chords by the
same width `dy`, so the integration uses one strip of width `dy` per station. -/
def stripWidths (semi : ℚ) : List ℚ :=
  (stationsY semi).map (fun _ => dyOf semi)

/-- `np.nansum`: sums a float array treating NaN entries as `0`; the sum of an
all-NaN array is `0.0`, not NaN. -/
def nansum (l : List (Option ℚ)) : ℚ :=
  (l.map (fun x => x.getD 0)).sum

/-- One wing configuration of the DOE sweep: the loop variables of
`analyze_3d` (lines 87-104). -/
structure WingConfig where
  b : ℚ
  c_root : ℚ
  taper : ℚ
  dihedral : ℚ
  twist_root : ℚ
  twist_tip : ℚ
  alpha_trim : ℚ
deriving DecidableEq

/-- `semi = b / 2.0` (line 88). -/
def semiOf (cfg : WingConfig) : ℚ := cfg.b / 2

/-- `c_tip = c_root * taper` (line 91). -/
def ctipOf (cfg : WingConfig) : ℚ := cfg.c_root * cfg.taper

/-- `S = b * 0.5 * (c_root + c_tip)` (line 92). -/
def sOf (cfg : WingConfig) : ℚ := cfg.b * (1 / 2) * (cfg.c_root + ctipOf cfg)

/-- `AR = b**2 / S if S > 0 else np.nan` (line 93). -/
def arOf (cfg : WingConfig) : Option ℚ :=
  if 0 < sOf cfg then some (cfg.b ^ 2 / sOf cfg) else none

/-- `e = max(0.65, 1.78*(1 - 0.045 * AR**0.68) - 0.64) if np.isfinite(AR) else
0.8` (line 94).  The transcendental `AR**0.68` is not rational; it enters the
embedding as the parameter `arPow` (the float approximation of `x ↦ x^0.68`),
so everything proved below holds for any value that power may take. -/
def eOf (arPow : ℚ → ℚ) (cfg : WingConfig) : ℚ :=
  match arOf cfg with
  | some ar => max 0.65 (1.78 * (1 - 0.045 * arPow ar) - 0.64)
  | none => 0.8

/-- The chord distribution of the configuration. -/
def chordOf (cfg : WingConfig) : List ℚ :=
  chordY (semiOf cfg) cfg.c_root (ctipOf cfg)

/-- `dS = chord_y * dy` (line 106). -/
def dSOf (cfg : WingConfig) : List ℚ :=
  (chordOf cfg).map (fun c => c * dyOf (semiOf cfg))

/-- `alpha_local = alpha_trim + twist_y` (line 108). -/
def alphaLocOf (cfg : WingConfig) : List ℚ :=
  (twistY (semiOf cfg) cfg.twist_root cfg.twist_tip).map (fun tw => cfg.alpha_trim + tw)

/-- `Re_local = (RHO * VEL * chord_y) / MU` (line 109). -/
def reLocOf (cfg : WingConfig) : List ℚ :=
  (chordOf cfg).map (fun c => RHO * VEL * c / MU)

/-- The per-station interpolation results (lines 115-119). -/
def secsOf (rows : List PolarRow) (airfoil : String) (cfg : WingConfig) : List Coeffs :=
  List.zipWith (fun R a => interpSection rows airfoil R a) (reLocOf cfg) (alphaLocOf cfg)

/-- `L_semi = np.nansum(q * dS * CL_sec)` (line 121). -/
def lsemiOf (rows : List PolarRow) (airfoil : String) (cfg : WingConfig) : ℚ :=
  nansum (List.zipWith (fun ds c => fmul (some (qDyn * ds)) c.CL) (dSOf cfg)
    (secsOf rows airfoil cfg))

/-- `Dp_semi = np.nansum(q * dS * CD_sec)` (line 122). -/
def dpsemiOf (rows : List PolarRow) (airfoil : String) (cfg : WingConfig) : ℚ :=
  nansum (List.zipWith (fun ds c => fmul (some (qDyn * ds)) c.CD) (dSOf cfg)
    (secsOf rows airfoil cfg))

/-- `L = 2.0 * L_semi` (line 124). -/
def lnOf (rows : List PolarRow) (airfoil : String) (cfg : WingConfig) : ℚ :=
  2 * lsemiOf rows airfoil cfg

/-- `CL = L / (q * S) if S > 0 else np.nan` (line 127). -/
def clOf (rows : List PolarRow) (airfoil : String) (cfg : WingConfig) : Option ℚ :=
  if 0 < sOf cfg then some (lnOf rows airfoil cfg / (qDyn * sOf cfg)) else none

/-- `CDp = Dp / (q * S) if S > 0 else np.nan` (line 128). -/
def cdpOf (rows : List PolarRow) (airfoil : String) (cfg : WingConfig) : Option ℚ :=
  if 0 < sOf cfg then some (2 * dpsemiOf rows airfoil cfg / (qDyn * sOf cfg)) else none

/-- `CDi = (CL**2) / (np.pi * AR * e) if (np.isfinite(AR) and AR > 0 and e > 0)
else np.nan` (line 129). -/
def cdiOf (arPow : ℚ → ℚ) (rows : List PolarRow) (airfoil : String) (cfg : WingConfig) :
    Option ℚ :=
  match arOf cfg with
  | some ar =>
    if 0 < ar ∧ 0 < eOf arPow cfg then
      fdiv (fmul (clOf rows airfoil cfg) (clOf rows airfoil cfg))
        (some (NP_PI * ar * eOf arPow cfg))
    else none
  | none => none

/-- `CD = CDp + CDi if (np.isfinite(CDp) and np.isfinite(CDi)) else np.nan`
(line 130). -/
def cdOf (arPow : ℚ → ℚ) (rows : List PolarRow) (airfoil : String) (cfg : WingConfig) :
    Option ℚ :=
  match cdpOf rows airfoil cfg, cdiOf arPow rows airfoil cfg with
  | some p, some i => some (p + i)
  | _, _ => none

/-- `c_mac = (2.0/3.0) * c_root * (1 + taper + taper**2) / (1 + taper) if
(1 + taper) != 0 else np.nan` (line 132). -/
def cmacOf (cfg : WingConfig) : Option ℚ :=
  if 1 + cfg.taper ≠ 0 then
    some ((2 / 3) * cfg.c_root * (1 + cfg.taper + cfg.taper ^ 2) / (1 + cfg.taper))
  else none

/-- `Mq_semi = np.nansum((q * dS) * CM_sec * chord_y)` (line 133). -/
def mqsemiOf (rows : List PolarRow) (airfoil : String) (cfg : WingConfig) : ℚ :=
  nansum (List.zipWith (fun pr c => fmul (fmul (some (qDyn * pr.1)) pr.2.CM) (some c))
    (List.zip (dSOf cfg) (secsOf rows airfoil cfg)) (chordOf cfg))

/-- `Cm = M / (q * S * c_mac) if (S > 0 and np.isfinite(c_mac) and c_mac > 0)
else np.nan` (lines 134-135). -/
def cmOf (rows : List PolarRow) (airfoil : String) (cfg : WingConfig) : Option ℚ :=
  match cmacOf cfg with
  | some cm =>
    if 0 < sOf cfg ∧ 0 < cm then
      some (2 * mqsemiOf rows airfoil cfg / (qDyn * sOf cfg * cm))
    else none
  | none => none

/-- One emitted row of the 3-D results table (`out_rows.append`, lines
137-158). -/
structure WingRow where
  airfoil : String
  b : ℚ
  c_root : ℚ
  taper : ℚ
  c_tip : ℚ
  S : ℚ
  AR : Option ℚ
  dihedral_deg : ℚ
  twist_root_deg : ℚ
  twist_tip_deg : ℚ
  alpha_trim_deg : ℚ
  V : ℚ
  rho : ℚ
  mu : ℚ
  CL : Option ℚ
  CDp : Option ℚ
  CDi : Option ℚ
  CD : Option ℚ
  Cm : Option ℚ
  L_N : ℚ

/-- The wing integrator: the body of the innermost DOE loop of `analyze_3d`
(lines 88-158) for one airfoil and one configuration. -/
def wingRow (rows : List PolarRow) (airfoil : String) (arPow : ℚ → ℚ) (cfg : WingConfig) :
    WingRow where
  airfoil := airfoil
  b := cfg.b
  c_root := cfg.c_root
  taper := cfg.taper
  c_tip := ctipOf cfg
  S := sOf cfg
  AR := arOf cfg
  dihedral_deg := cfg.dihedral
  twist_root_deg := cfg.twist_root
  twist_tip_deg := cfg.twist_tip
  alpha_trim_deg := cfg.alpha_trim
  V := VEL
  rho := RHO
  mu := MU
  CL := clOf rows airfoil cfg
  CDp := cdpOf rows airfoil cfg
  CDi := cdiOf arPow rows airfoil cfg
  CD := cdOf arPow rows airfoil cfg
  Cm := cmOf rows airfoil cfg
  L_N := lnOf rows airfoil cfg

/-! ## Concrete tables and configurations used as test inputs -/

/-- Two Reynolds levels with distinct CL values: exposes the `1e-12` epsilon
in the blend weight at an exact match of the upper level. -/
def exTbl : List PolarRow :=
  [⟨"A", 1, 0, some 0, some 0, some 0⟩, ⟨"A", 2, 0, some 1, some 0, some 0⟩]

/-- Two fully finite Reynolds levels; used to query at the minimum level. -/
def exMinTbl : List PolarRow :=
  [⟨"A", 1, 0, some 5, some 6, some 7⟩, ⟨"A", 2, 0, some 1, some 1, some 1⟩]

/-- A stored sample at the minimum Reynolds level of a two-level table. -/
def exC3Row : PolarRow := ⟨"A", 1, 2, some 3, some 4, some 5⟩

/-- Table containing `exC3Row`, a second alpha at its level and a second
Reynolds level. -/
def exC3Tbl : List PolarRow :=
  [exC3Row, ⟨"A", 1, 6, some 8, some 9, some 10⟩, ⟨"A", 7, 2, some 1, some 1, some 1⟩]

/-- One Reynolds level with alphas recorded on `[-5, 15]`. -/
def exC5Sub : List PolarRow :=
  [⟨"A", 1, -5, some 1, some 2, some 3⟩, ⟨"A", 1, 15, some 4, some 5, some 6⟩]

/-- A table whose only airfoil is `"B"`. -/
def exC9Tbl : List PolarRow := [⟨"B", 1, 0, some 1, some 1, some 1⟩]

/-- Valid data at `Re = 1`; at `Re = 2` all of `CL`, `CD`, `CM` are NaN. -/
def exC10Tbl : List PolarRow :=
  [⟨"A", 1, 0, some 1, some 1, some 1⟩, ⟨"A", 2, 0, none, none, none⟩]

/-- An airfoil present in the table whose every coefficient is NaN (tolerated
solver non-convergence rows). -/
def nanTable : List PolarRow := [⟨"X", 100000, 0, none, none, none⟩]

/-- `b = 1.0, c_root = 0.15, taper = 1.0`, no twist, `alpha_trim = 0`: a
configuration of the shipped sweep with positive area. -/
def cfg2 : WingConfig := ⟨1, 3 / 20, 1, 0, 0, 0, 0⟩

/-- A one-sample all-finite table. -/
def finTable : List PolarRow := [⟨"A", 100000, 0, some 1, some 1, some 1⟩]

/-- A rectangular wing with unit span and chord. -/
def cfg8 : WingConfig := ⟨1, 1, 1, 0, 0, 0, 0⟩

/-! ## Helper lemmas -/

theorem qmin_le_of_mem : ∀ {l : List ℚ} {x : ℚ}, x ∈ l → qmin l ≤ x
  | [], _, hm => absurd hm (List.not_mem_nil _)
  | [a], x, hm => by
      have hx : x = a := List.mem_singleton.mp hm
      subst hx
      exact le_refl x
  | a :: b :: t, x, hm => by
      simp only [qmin]
      rcases List.mem_cons.mp hm with hx | hx
      · subst hx
        exact min_le_left _ _
      · exact le_trans (min_le_right _ _) (qmin_le_of_mem hx)

theorem le_qmax_of_mem : ∀ {l : List ℚ} {x : ℚ}, x ∈ l → x ≤ qmax l
  | [], _, hm => absurd hm (List.not_mem_nil _)
  | [a], x, hm => by
      have hx : x = a := List.mem_singleton.mp hm
      subst hx
      exact le_refl x
  | a :: b :: t, x, hm => by
      simp only [qmax]
      rcases List.mem_cons.mp hm with hx | hx
      · subst hx
        exact le_max_left _ _
      · exact le_trans (le_qmax_of_mem hx) (le_max_right _ _)

theorem qmin_le_qmax {l : List ℚ} (h : l ≠ []) : qmin l ≤ qmax l := by
  cases l with
  | nil => exact absurd rfl h
  | cons a t =>
    exact le_trans (qmin_le_of_mem (List.mem_cons_self a t))
      (le_qmax_of_mem (List.mem_cons_self a t))

/-- `interp_at` depends on the query alpha only through the clamped value. -/
theorem interp_at_clip_congr (sub : List PolarRow) (R : ℚ) {x y : ℚ}
    (h : clipQ x (aminOf sub R) (amaxOf sub R) = clipQ y (aminOf sub R) (amaxOf sub R)) :
    interp_at sub x R = interp_at sub y R := by
  unfold interp_at
  rw [h]

/-! ## Claims -/

/-- C5: for every airfoil and recorded Reynolds level with a non-empty set of
alpha samples, querying an alpha outside the recorded alpha range returns the
same `(CL, CD, CM)` as querying the nearest boundary alpha of that range:
the clamp `np.clip(alpha, amin, amax)` on line 49 makes the per-level
interpolation of any out-of-range alpha coincide with the interpolation at
the boundary (clamping, never extrapolation). -/
theorem c5_alpha_clamping (sub : List PolarRow) (R alpha : ℚ)
    (hne : levelSorted sub R ≠ []) :
    (amaxOf sub R < alpha → interp_at sub alpha R = interp_at sub (amaxOf sub R) R) ∧
    (alpha < aminOf sub R → interp_at sub alpha R = interp_at sub (aminOf sub R) R) := by
  have hmaps : (levelSorted sub R).map (fun r => r.alpha) ≠ [] := by
    intro hc
    exact hne (List.map_eq_nil_iff.mp hc)
  have hmm : aminOf sub R ≤ amaxOf sub R := qmin_le_qmax hmaps
  constructor
  · intro hgt
    apply interp_at_clip_congr
    unfold clipQ
    rw [max_eq_left (le_of_lt (lt_of_le_of_lt hmm hgt)), min_eq_right (le_of_lt hgt),
      max_eq_left hmm, min_self]
  · intro hlt
    apply interp_at_clip_congr
    unfold clipQ
    rw [max_eq_right (le_of_lt hlt), min_eq_left hmm, max_self, min_eq_left hmm]

/-- Witness for C5 at a concrete table: alpha 30 lies above the recorded
range `[-5, 15]` for `Re = 1`, and the result equals the boundary result. -/
theorem c5_witness :
    levelSorted exC5Sub 1 ≠ [] ∧ amaxOf exC5Sub 1 < 30 ∧
      interp_at exC5Sub 30 1 = interp_at exC5Sub (amaxOf exC5Sub 1) 1 :=
  ⟨by decide, by decide, (c5_alpha_clamping exC5Sub 1 30 (by decide)).1 (by decide)⟩

/-- C9: a query naming an airfoil with no samples in the table returns the
explicit no-data sentinel `(NaN, NaN, NaN)` (lines 28-30) and, being a total
function of its inputs, does not raise. -/
theorem c9_airfoil_missing (rows : List PolarRow) (airfoil : String) (Re alpha : ℚ)
    (h : subFor rows airfoil = []) :
    interpSection rows airfoil Re alpha = noData := by
  unfold interpSection
  rw [if_pos h]

/-- Witness for C9: airfoil `"A"` has no samples in a table for `"B"`. -/
theorem c9_witness :
    subFor exC9Tbl "A" = [] ∧ interpSection exC9Tbl "A" 5 1 = noData :=
  ⟨by decide, c9_airfoil_missing exC9Tbl "A" 5 1 (by decide)⟩

theorem stationsY_getD (semi : ℚ) {i : ℕ} (h : i < 31) :
    (stationsY semi).getD i 0 = semi * i / 30 := by
  unfold stationsY N_SPAN_SECTIONS
  rw [List.getD_eq_getElem?_getD, List.getElem?_map, List.getElem?_range h]
  norm_num

theorem stationsY_length (semi : ℚ) : (stationsY semi).length = 31 := by
  simp [stationsY, N_SPAN_SECTIONS]

set_option maxRecDepth 40000 in
unseal Rat.add Rat.mul Rat.sub Rat.inv Rat.ofScientific in
/-- C4 counterexample: for the positive semi-span `30` the claim's second
conjunct fails: the 31 strip widths of `semi/30 = 1` used by the quadrature
sum to `31`, not to the semi-span `30`. -/
theorem c4_counterexample : (0 : ℚ) < 30 ∧ (stripWidths 30).sum ≠ 30 := by decide

/-- C4 amended: for every positive semi-span the 31 stations are strictly
increasing from `0` (station 0) to the semi-span (station 30), but the strip
widths used by the integration (`chord_y * dy` applies the common width
`dy = semi/30` at each of the 31 stations) sum to `31 * semi / 30`, i.e.
`N/(N-1)` times the semi-span, not the semi-span itself. -/
theorem c4_amended (semi : ℚ) (hs : 0 < semi) :
    (stationsY semi).length = 31 ∧
    (stationsY semi).getD 0 0 = 0 ∧
    (stationsY semi).getD 30 0 = semi ∧
    List.Chain' (fun a b => a < b) (stationsY semi) ∧
    (stripWidths semi).sum = 31 * semi / 30 := by
  refine ⟨stationsY_length semi, ?_, ?_, ?_, ?_⟩
  · rw [stationsY_getD semi (by norm_num)]
    norm_num
  · rw [stationsY_getD semi (by norm_num)]
    norm_num
  · unfold stationsY
    refine (List.chain'_map _).mpr ?_
    refine (List.chain'_range_succ _ 30).mpr ?_
    intro m hm
    have hC : (0 : ℚ) < (N_SPAN_SECTIONS : ℚ) - 1 := by norm_num [N_SPAN_SECTIONS]
    rw [div_lt_div_iff_of_pos_right hC]
    have hmc : (m : ℚ) < ((m + 1 : ℕ) : ℚ) := by exact_mod_cast Nat.lt_succ_self m
    exact mul_lt_mul_of_pos_left hmc hs
  · unfold stripWidths
    rw [List.map_const', List.sum_replicate, nsmul_eq_mul, stationsY_length]
    have hdy : dyOf semi = semi / 30 := by
      unfold dyOf N_SPAN_SECTIONS
      norm_num
    rw [hdy]
    push_cast
    ring

/-- Witness for C4 amended at semi-span `1`. -/
theorem c4_amended_witness :
    (0 : ℚ) < 1 ∧
      ((stationsY 1).length = 31 ∧
      (stationsY 1).getD 0 0 = 0 ∧
      (stationsY 1).getD 30 0 = 1 ∧
      List.Chain' (fun a b => a < b) (stationsY 1) ∧
      (stripWidths 1).sum = 31 * 1 / 30) :=
  ⟨by norm_num, c4_amended 1 (by norm_num)⟩

set_option maxRecDepth 40000 in
unseal Rat.add Rat.mul Rat.sub Rat.inv Rat.ofScientific in
theorem stationsY_zero : stationsY 0 = List.replicate 31 0 := by decide

theorem chordY_zero (c_root c_tip : ℚ) : chordY 0 c_root c_tip = List.replicate 31 c_root := by
  unfold chordY
  rw [if_neg (lt_irrefl 0), List.map_const', stationsY_length]

theorem twistY_zero (twist_root twist_tip : ℚ) :
    twistY 0 twist_root twist_tip = List.replicate 31 0 := by
  unfold twistY
  rw [if_neg (lt_irrefl 0), List.map_const', stationsY_length]

set_option maxRecDepth 40000 in
unseal Rat.add Rat.mul Rat.sub Rat.inv Rat.ofScientific in
theorem dyOf_zero : dyOf 0 = 0 := by decide

set_option maxRecDepth 40000 in
unseal Rat.add Rat.mul Rat.sub Rat.inv Rat.ofScientific in
/-- C6 counterexample: with semi-span `0` and root twist `5` the first
station's local twist is `0` (the `np.zeros_like` branch of line 102), not
the root twist `5`, refuting the claim's twist conjunct. -/
theorem c6_counterexample : (twistY 0 5 (-2)).getD 0 0 ≠ 5 := by decide

set_option maxRecDepth 40000 in
unseal Rat.add Rat.mul Rat.sub Rat.inv Rat.ofScientific in
/-- C6 amended: with semi-span `0` every station sits at `y = 0` with local
chord equal to the root chord and strip width `0`, and no division by zero
occurs (the `semi > 0` guards of lines 97 and 102 select the constant
branches); but the local twist is `0` at every station — it equals the root
twist only when the root twist is `0` (as it is in the shipped sweep, where
`TWIST_ROOTS = [0.0]`), because the degenerate branch is `np.zeros_like(y)`,
not `np.full_like(y, twist_root)`. -/
theorem c6_amended (c_root c_tip twist_root twist_tip : ℚ) :
    stationsY 0 = List.replicate 31 0 ∧
    chordY 0 c_root c_tip = List.replicate 31 c_root ∧
    twistY 0 twist_root twist_tip = List.replicate 31 0 ∧
    dyOf 0 = 0 ∧
    stripWidths 0 = List.replicate 31 0 := by
  refine ⟨stationsY_zero, chordY_zero c_root c_tip, twistY_zero twist_root twist_tip,
    dyOf_zero, ?_⟩
  decide

theorem nansum_cons (x : Option ℚ) (l : List (Option ℚ)) :
    nansum (x :: l) = x.getD 0 + nansum l := by
  simp [nansum]

/-- A strip of zero width contributes zero to a NaN-skipping sum, whether or
not the station coefficient is NaN. -/
theorem nansum_zip_zero (g : Coeffs → Option ℚ) :
    ∀ (n : ℕ) (l : List Coeffs),
      nansum (List.zipWith (fun ds c => fmul (some (qDyn * ds)) (g c))
        (List.replicate n 0) l) = 0
  | 0, _ => by simp [nansum]
  | n + 1, [] => by simp [nansum]
  | n + 1, c :: t => by
      rw [List.replicate_succ, List.zipWith_cons_cons, nansum_cons, nansum_zip_zero g n t]
      cases hg : g c with
      | none => simp [fmul]
      | some v => simp [fmul, hg]

/-- C7: for every wing configuration with span `0` (hence semi-span `0` and
area `0`) the wing integrator is total (it cannot raise) and emits a row with
`AR` absent (`S > 0` fails on line 93), every coefficient that divides by the
degenerate area absent (`CL`, `CDp`, `Cm` via their `S > 0` guards, `CDi` and
`CD` via the `np.isfinite` guards), and dimensional total lift exactly `0`
(all strips have zero width, and `np.nansum` of the resulting `0`/NaN terms
is `0`). -/
theorem c7_zero_span_row (rows : List PolarRow) (airfoil : String) (arPow : ℚ → ℚ)
    (c_root taper dihedral twist_root twist_tip alpha_trim : ℚ) :
    (wingRow rows airfoil arPow ⟨0, c_root, taper, dihedral, twist_root, twist_tip,
      alpha_trim⟩).AR = none ∧
    (wingRow rows airfoil arPow ⟨0, c_root, taper, dihedral, twist_root, twist_tip,
      alpha_trim⟩).CL = none ∧
    (wingRow rows airfoil arPow ⟨0, c_root, taper, dihedral, twist_root, twist_tip,
      alpha_trim⟩).CDp = none ∧
    (wingRow rows airfoil arPow ⟨0, c_root, taper, dihedral, twist_root, twist_tip,
      alpha_trim⟩).CDi = none ∧
    (wingRow rows airfoil arPow ⟨0, c_root, taper, dihedral, twist_root, twist_tip,
      alpha_trim⟩).CD = none ∧
    (wingRow rows airfoil arPow ⟨0, c_root, taper, dihedral, twist_root, twist_tip,
      alpha_trim⟩).Cm = none ∧
    (wingRow rows airfoil arPow ⟨0, c_root, taper, dihedral, twist_root, twist_tip,
      alpha_trim⟩).L_N = 0 := by
  have hS : sOf ⟨0, c_root, taper, dihedral, twist_root, twist_tip, alpha_trim⟩ = 0 := by
    simp [sOf]
  have hAR : arOf ⟨0, c_root, taper, dihedral, twist_root, twist_tip, alpha_trim⟩ = none := by
    unfold arOf
    rw [hS]
    simp
  have hsemi : semiOf ⟨0, c_root, taper, dihedral, twist_root, twist_tip, alpha_trim⟩ = 0 := by
    simp [semiOf]
  have hdS : dSOf ⟨0, c_root, taper, dihedral, twist_root, twist_tip, alpha_trim⟩ =
      List.replicate 31 0 := by
    unfold dSOf chordOf
    rw [hsemi, chordY_zero, dyOf_zero, List.map_replicate]
    simp
  have hCL : clOf rows airfoil ⟨0, c_root, taper, dihedral, twist_root, twist_tip,
      alpha_trim⟩ = none := by
    unfold clOf
    rw [hS]
    simp
  have hCDp : cdpOf rows airfoil ⟨0, c_root, taper, dihedral, twist_root, twist_tip,
      alpha_trim⟩ = none := by
    unfold cdpOf
    rw [hS]
    simp
  refine ⟨hAR, hCL, hCDp, ?_, ?_, ?_, ?_⟩
  · show cdiOf arPow rows airfoil _ = none
    unfold cdiOf
    rw [hAR]
  · show cdOf arPow rows airfoil _ = none
    unfold cdOf
    rw [hCDp]
  · show cmOf rows airfoil _ = none
    unfold cmOf
    rw [hS]
    rcases cmacOf ⟨0, c_root, taper, dihedral, twist_root, twist_tip, alpha_trim⟩ with _ | cm
    · rfl
    · simp
  · show lnOf rows airfoil _ = 0
    unfold lnOf lsemiOf
    rw [hdS, nansum_zip_zero (fun c => c.CL) 31 _]
    ring

/-- C8: in every emitted row, `CD` equals `CDp + CDi` whenever both are
finite, and is the absent marker (never zero or a default) whenever either of
them is absent — line 130 of the source verbatim, proved for every input
table and configuration the integrator can receive. -/
theorem c8_cd_sum (rows : List PolarRow) (airfoil : String) (arPow : ℚ → ℚ)
    (cfg : WingConfig) :
    ((wingRow rows airfoil arPow cfg).CDp.isSome → (wingRow rows airfoil arPow cfg).CDi.isSome →
      (wingRow rows airfoil arPow cfg).CD =
        fadd (wingRow rows airfoil arPow cfg).CDp (wingRow rows airfoil arPow cfg).CDi) ∧
    ((wingRow rows airfoil arPow cfg).CDp = none ∨ (wingRow rows airfoil arPow cfg).CDi = none →
      (wingRow rows airfoil arPow cfg).CD = none) := by
  constructor
  · intro h1 h2
    replace h1 : (cdpOf rows airfoil cfg).isSome = true := h1
    replace h2 : (cdiOf arPow rows airfoil cfg).isSome = true := h2
    show cdOf arPow rows airfoil cfg = fadd (cdpOf rows airfoil cfg) (cdiOf arPow rows airfoil cfg)
    rcases hp : cdpOf rows airfoil cfg with _ | p
    · rw [hp] at h1
      simp at h1
    · rcases hi : cdiOf arPow rows airfoil cfg with _ | i
      · rw [hi] at h2
        simp at h2
      · unfold cdOf
        rw [hp, hi]
        rfl
  · intro h
    show cdOf arPow rows airfoil cfg = none
    unfold cdOf
    rcases h with h | h
    · replace h : cdpOf rows airfoil cfg = none := h
      rw [h]
    · replace h : cdiOf arPow rows airfoil cfg = none := h
      rw [h]
      cases cdpOf rows airfoil cfg <;> rfl

set_option maxRecDepth 400000 in
unseal Rat.add Rat.mul Rat.sub Rat.inv Rat.ofScientific in
/-- Witness for C8 at an all-finite table and a rectangular wing: both drag
components are present and the emitted `CD` is their sum. -/
theorem c8_witness :
    (wingRow finTable "A" (fun _ => 1) cfg8).CDp.isSome = true ∧
    (wingRow finTable "A" (fun _ => 1) cfg8).CDi.isSome = true ∧
    (wingRow finTable "A" (fun _ => 1) cfg8).CD =
      fadd (wingRow finTable "A" (fun _ => 1) cfg8).CDp
        (wingRow finTable "A" (fun _ => 1) cfg8).CDi :=
  ⟨by decide, by decide, (c8_cd_sum finTable "A" (fun _ => 1) cfg8).1 (by decide) (by decide)⟩

set_option maxRecDepth 400000 in
unseal Rat.add Rat.mul Rat.sub Rat.inv Rat.ofScientific in
/-- C2 (code bug): for a wing with positive area over an airfoil whose every
stored coefficient is NaN, every one of the 31 stations interpolates to the
no-data sentinel, yet the emitted row carries `CL = CDp = CDi = CD = Cm = 0`:
`np.nansum` (lines 121-122, 133) returns `0.0` on an all-NaN array and the
`S > 0` divisions then produce plain zeros.  The spec demands explicit absent
markers here ("the output row's CL/CD/Cm fields must all be explicit absent
markers, not zero"), so the code contradicts the specified invalid-propagation
policy. -/
theorem c2_all_invalid_emits_zero :
    secsOf nanTable "X" cfg2 = List.replicate 31 noData ∧
    (wingRow nanTable "X" (fun _ => 1) cfg2).CL = some 0 ∧
    (wingRow nanTable "X" (fun _ => 1) cfg2).CDp = some 0 ∧
    (wingRow nanTable "X" (fun _ => 1) cfg2).CDi = some 0 ∧
    (wingRow nanTable "X" (fun _ => 1) cfg2).CD = some 0 ∧
    (wingRow nanTable "X" (fun _ => 1) cfg2).Cm = some 0 := by
  decide

theorem blend_none (t : ℚ) {lo hi : Option ℚ} (h : lo = none ∨ hi = none) :
    blend t lo hi = none := by
  rcases h with h | h
  · rw [h]
    cases hi <;> rfl
  · rw [h]
    cases lo <;> rfl

/-- C10: when the two bracketing Reynolds levels are distinct and the
per-level alpha-interpolation yields NaN for a coefficient — `CL`, `CD` or
`CM` — at exactly one of the two levels while yielding a finite value at the
other, the blended result for that coefficient is NaN — even when the query
Reynolds exactly equals the level holding valid data (the `t = 0` case),
because the NaN side is still multiplied into `(1-t)*lo + t*hi`
(`0 * NaN = NaN` in IEEE arithmetic, `fmul (some 0) none = none` here).
The three conjuncts state the property for each coefficient channel. -/
theorem c10_nan_poisons_blend (rows : List PolarRow) (airfoil : String) (Re alpha : ℚ)
    (_hne : (bracketRe (distinctRes rows airfoil) Re).1 ≠
      (bracketRe (distinctRes rows airfoil) Re).2) :
    (((interp_at (subFor rows airfoil) alpha (bracketRe (distinctRes rows airfoil) Re).1).CL =
          none ∧
        (interp_at (subFor rows airfoil) alpha
          (bracketRe (distinctRes rows airfoil) Re).2).CL.isSome) ∨
      ((interp_at (subFor rows airfoil) alpha
          (bracketRe (distinctRes rows airfoil) Re).1).CL.isSome ∧
        (interp_at (subFor rows airfoil) alpha (bracketRe (distinctRes rows airfoil) Re).2).CL =
          none) →
      (interpSection rows airfoil Re alpha).CL = none) ∧
    (((interp_at (subFor rows airfoil) alpha (bracketRe (distinctRes rows airfoil) Re).1).CD =
          none ∧
        (interp_at (subFor rows airfoil) alpha
          (bracketRe (distinctRes rows airfoil) Re).2).CD.isSome) ∨
      ((interp_at (subFor rows airfoil) alpha
          (bracketRe (distinctRes rows airfoil) Re).1).CD.isSome ∧
        (interp_at (subFor rows airfoil) alpha (bracketRe (distinctRes rows airfoil) Re).2).CD =
          none) →
      (interpSection rows airfoil Re alpha).CD = none) ∧
    (((interp_at (subFor rows airfoil) alpha (bracketRe (distinctRes rows airfoil) Re).1).CM =
          none ∧
        (interp_at (subFor rows airfoil) alpha
          (bracketRe (distinctRes rows airfoil) Re).2).CM.isSome) ∨
      ((interp_at (subFor rows airfoil) alpha
          (bracketRe (distinctRes rows airfoil) Re).1).CM.isSome ∧
        (interp_at (subFor rows airfoil) alpha (bracketRe (distinctRes rows airfoil) Re).2).CM =
          none) →
      (interpSection rows airfoil Re alpha).CM = none) := by
  unfold interpSection
  by_cases hsub : subFor rows airfoil = []
  · rw [if_pos hsub]
    exact ⟨fun _ => rfl, fun _ => rfl, fun _ => rfl⟩
  · rw [if_neg hsub]
    unfold blendCoeffs
    by_cases hnn : interp_at (subFor rows airfoil) alpha
        (bracketRe (distinctRes rows airfoil) Re).1 = noData ∧
        interp_at (subFor rows airfoil) alpha
          (bracketRe (distinctRes rows airfoil) Re).2 = noData
    · rw [if_pos hnn]
      exact ⟨fun _ => rfl, fun _ => rfl, fun _ => rfl⟩
    · rw [if_neg hnn]
      refine ⟨fun h => ?_, fun h => ?_, fun h => ?_⟩ <;>
        apply blend_none <;>
        rcases h with ⟨h1, -⟩ | ⟨-, h2⟩
      · exact Or.inl h1
      · exact Or.inr h2
      · exact Or.inl h1
      · exact Or.inr h2
      · exact Or.inl h1
      · exact Or.inr h2

set_option maxRecDepth 400000 in
unseal Rat.add Rat.mul Rat.sub Rat.inv Rat.ofScientific in
/-- Witness for C10 in the emphasized `t = 0` configuration: the query
`Re = 1` exactly matches the level with valid data, the blend weight is `0`,
and all three result coefficients are still NaN because level `2` stores NaN
in every channel while level `1` is finite in every channel. -/
theorem c10_witness :
    (bracketRe (distinctRes exC10Tbl "A") 1).1 ≠ (bracketRe (distinctRes exC10Tbl "A") 1).2 ∧
    blendT (bracketRe (distinctRes exC10Tbl "A") 1).1
      (bracketRe (distinctRes exC10Tbl "A") 1).2 1 = 0 ∧
    (interp_at (subFor exC10Tbl "A") 0 (bracketRe (distinctRes exC10Tbl "A") 1).1).CL.isSome =
      true ∧
    (interp_at (subFor exC10Tbl "A") 0 (bracketRe (distinctRes exC10Tbl "A") 1).1).CD.isSome =
      true ∧
    (interp_at (subFor exC10Tbl "A") 0 (bracketRe (distinctRes exC10Tbl "A") 1).1).CM.isSome =
      true ∧
    (interp_at (subFor exC10Tbl "A") 0 (bracketRe (distinctRes exC10Tbl "A") 1).2).CL = none ∧
    (interp_at (subFor exC10Tbl "A") 0 (bracketRe (distinctRes exC10Tbl "A") 1).2).CD = none ∧
    (interp_at (subFor exC10Tbl "A") 0 (bracketRe (distinctRes exC10Tbl "A") 1).2).CM = none ∧
    (interpSection exC10Tbl "A" 1 0).CL = none ∧
    (interpSection exC10Tbl "A" 1 0).CD = none ∧
    (interpSection exC10Tbl "A" 1 0).CM = none :=
  ⟨by decide, by decide, by decide, by decide, by decide, by decide, by decide, by decide,
    (c10_nan_poisons_blend exC10Tbl "A" 1 0 (by decide)).1
      (Or.inr ⟨by decide, by decide⟩),
    (c10_nan_poisons_blend exC10Tbl "A" 1 0 (by decide)).2.1
      (Or.inr ⟨by decide, by decide⟩),
    (c10_nan_poisons_blend exC10Tbl "A" 1 0 (by decide)).2.2
      (Or.inr ⟨by decide, by decide⟩)⟩

theorem searchsortedLeft_head (r : ℚ) (rest : List ℚ) :
    searchsortedLeft (r :: rest) r = 0 := by
  unfold searchsortedLeft
  rw [if_pos (le_refl r)]

/-- When the query equals the head of `res`, the bracket is the head paired
with `res[min 1 (len-1)]` (lines 35-36 of the source). -/
theorem bracketRe_head (r : ℚ) (rest : List ℚ) :
    bracketRe (r :: rest) r =
      (r, (r :: rest).getD (min 1 ((r :: rest).length - 1)) 0) := by
  unfold bracketRe
  rw [searchsortedLeft_head]
  rfl

/-- The blend weight is `0` whenever the query equals `Re_lo`: either the
`Re_hi == Re_lo` branch fires, or the numerator `Re - Re_lo` is zero. -/
theorem blendT_exact (ReLo ReHi : ℚ) : blendT ReLo ReHi ReLo = 0 := by
  unfold blendT
  split
  · rfl
  · rw [sub_self, zero_div]

/-- With weight `0` and a finite second operand, the blend returns the first
operand unchanged (including a NaN first operand). -/
theorem blend_zero_of_isSome (lo : Option ℚ) {hi : Option ℚ} (h : hi.isSome) :
    blend 0 lo hi = lo := by
  rcases Option.isSome_iff_exists.mp h with ⟨v, rfl⟩
  cases lo with
  | none => rfl
  | some a => simp [blend, fmul, fadd]

theorem blendCoeffs_zero (lo hi : Coeffs) (h1 : hi.CL.isSome) (h2 : hi.CD.isSome)
    (h3 : hi.CM.isSome) : blendCoeffs 0 lo hi = lo := by
  have hnn : ¬(lo = noData ∧ hi = noData) := by
    rintro ⟨-, hhi⟩
    rw [hhi] at h1
    simp [noData] at h1
  unfold blendCoeffs
  rw [if_neg hnn, blend_zero_of_isSome _ h1, blend_zero_of_isSome _ h2,
    blend_zero_of_isSome _ h3]

theorem distinctRes_of_empty (rows : List PolarRow) (airfoil : String)
    (h : subFor rows airfoil = []) : distinctRes rows airfoil = [] := by
  unfold distinctRes
  rw [h]
  rfl

/-- Querying `_interp_section` at the minimum recorded Reynolds level: the
bracket degenerates to `(Re, res[min 1 (len-1)])`, the blend weight is `0`,
and — provided the neighbouring level interpolates to finite values — the
result is exactly the single-level interpolation `interp_at` at that
Reynolds. -/
theorem interpSection_min (rows : List PolarRow) (airfoil : String) (Re alpha : ℚ)
    (hmin : (distinctRes rows airfoil).head? = some Re)
    (h1 : (interp_at (subFor rows airfoil) alpha
      (bracketRe (distinctRes rows airfoil) Re).2).CL.isSome)
    (h2 : (interp_at (subFor rows airfoil) alpha
      (bracketRe (distinctRes rows airfoil) Re).2).CD.isSome)
    (h3 : (interp_at (subFor rows airfoil) alpha
      (bracketRe (distinctRes rows airfoil) Re).2).CM.isSome) :
    interpSection rows airfoil Re alpha = interp_at (subFor rows airfoil) alpha Re := by
  obtain ⟨rest, hres⟩ : ∃ rest, distinctRes rows airfoil = Re :: rest := by
    cases hd : distinctRes rows airfoil with
    | nil =>
      rw [hd] at hmin
      exact absurd hmin (by simp)
    | cons a t =>
      rw [hd] at hmin
      simp only [List.head?_cons, Option.some.injEq] at hmin
      exact ⟨t, by rw [hmin]⟩
  have hsub : subFor rows airfoil ≠ [] := by
    intro hc
    rw [distinctRes_of_empty rows airfoil hc] at hres
    exact List.noConfusion hres
  have hbr1 : (bracketRe (distinctRes rows airfoil) Re).1 = Re := by
    rw [hres, bracketRe_head]
  unfold interpSection
  rw [if_neg hsub, hbr1, blendT_exact]
  exact blendCoeffs_zero _ _ h1 h2 h3

set_option maxRecDepth 400000 in
unseal Rat.add Rat.mul Rat.sub Rat.inv Rat.ofScientific in
/-- C1 counterexample: the claim fails as stated.  The table records levels
`Re ∈ {1, 2}` for airfoil `"A"`; the query `Re = 2` exactly matches the
recorded level `2`, yet the result is not the single-Reynolds interpolation
at level `2`: the blend weight is `t = (2-1)/(2-1+1e-12) < 1` (line 61), so a
nonzero share of level `1` is mixed in (`CL` comes out `10^12/(10^12+1)`
instead of `1`; the same gap survives in float64, where `1e-12` is about
`4.5e3` times the unit roundoff at `1`). -/
theorem c1_counterexample :
    (2 : ℚ) ∈ distinctRes exTbl "A" ∧
    interpSection exTbl "A" 2 0 ≠ interp_at (subFor exTbl "A") 0 2 := by
  decide

/-- C1 amended: an exact Reynolds match reproduces the single-Reynolds
interpolation only when the query equals the minimum recorded level (or the
only level) — for which the blend weight is exactly `0` — and the
neighbouring bracket level interpolates to finite values (otherwise its NaN
is multiplied into the blend).  For exact matches above the minimum, the
weight `t = d/(d + 1e-12) < 1` leaves a nonzero contribution of the lower
level (see the counterexample). -/
theorem c1_exact_re_amended (rows : List PolarRow) (airfoil : String) (Re alpha : ℚ)
    (hmin : (distinctRes rows airfoil).head? = some Re)
    (h1 : (interp_at (subFor rows airfoil) alpha
      (bracketRe (distinctRes rows airfoil) Re).2).CL.isSome)
    (h2 : (interp_at (subFor rows airfoil) alpha
      (bracketRe (distinctRes rows airfoil) Re).2).CD.isSome)
    (h3 : (interp_at (subFor rows airfoil) alpha
      (bracketRe (distinctRes rows airfoil) Re).2).CM.isSome) :
    interpSection rows airfoil Re alpha = interp_at (subFor rows airfoil) alpha Re :=
  interpSection_min rows airfoil Re alpha hmin h1 h2 h3

set_option maxRecDepth 400000 in
unseal Rat.add Rat.mul Rat.sub Rat.inv Rat.ofScientific in
/-- Witness for C1 amended: a query at the minimum level `Re = 1` of a
two-level table returns exactly the level-1 interpolation. -/
theorem c1_witness :
    (distinctRes exMinTbl "A").head? = some 1 ∧
    (interp_at (subFor exMinTbl "A") 0 (bracketRe (distinctRes exMinTbl "A") 1).2).CL.isSome =
      true ∧
    (interp_at (subFor exMinTbl "A") 0 (bracketRe (distinctRes exMinTbl "A") 1).2).CD.isSome =
      true ∧
    (interp_at (subFor exMinTbl "A") 0 (bracketRe (distinctRes exMinTbl "A") 1).2).CM.isSome =
      true ∧
    interpSection exMinTbl "A" 1 0 = interp_at (subFor exMinTbl "A") 0 1 :=
  ⟨by decide, by decide, by decide, by decide,
    c1_exact_re_amended exMinTbl "A" 1 0 (by decide) (by decide) (by decide) (by decide)⟩

/-- `np.interp` returns the stored ordinate exactly when the query hits a
grid point of a sorted grid without duplicate abscissae (the `dx[j] == x_val`
shortcut of numpy's `arr_interp`). -/
theorem npInterp_exact (x : ℚ) (y : Option ℚ) :
    ∀ (pts : List (ℚ × Option ℚ)),
      List.Pairwise (fun p q => p.1 ≤ q.1) pts →
      (pts.map Prod.fst).Nodup → (x, y) ∈ pts → npInterp x pts = y
  | [], _, _, hm => absurd hm (List.not_mem_nil _)
  | [(a, b)], _, _, hm => by
      have h := List.mem_singleton.mp hm
      injection h with hx hy
      subst hx
      subst hy
      rfl
  | (x0, y0) :: (x1, y1) :: rest, hp, hn, hm => by
      simp only [List.map_cons] at hn
      rcases List.mem_cons.mp hm with heq | htail
      · injection heq with hx hy
        subst hx
        subst hy
        have hle : x ≤ x1 := (List.pairwise_cons.mp hp).1 (x1, y1) (List.mem_cons_self _ _)
        have hne01 : x ≠ x1 := by
          intro hc
          exact (List.nodup_cons.mp hn).1 (by rw [hc]; exact List.mem_cons_self _ _)
        have hc1 : ¬ x < x := lt_irrefl x
        have hc2 : ¬ x1 ≤ x := fun hc => hne01 (le_antisymm hle hc)
        unfold npInterp
        rw [if_neg hc1, if_neg hc2, if_pos rfl]
      · have hx0le : x0 ≤ x := (List.pairwise_cons.mp hp).1 (x, y) htail
        have hx1le : x1 ≤ x := by
          rcases List.mem_cons.mp htail with heq2 | hrest
          · exact le_of_eq (congrArg Prod.fst heq2).symm
          · exact (List.pairwise_cons.mp (List.pairwise_cons.mp hp).2).1 (x, y) hrest
        have hc1 : ¬ x < x0 := not_lt.mpr hx0le
        unfold npInterp
        rw [if_neg hc1, if_pos hx1le]
        exact npInterp_exact x y ((x1, y1) :: rest) (List.pairwise_cons.mp hp).2
          (List.nodup_cons.mp hn).2 htail

/-- The per-level interpolation at a stored sample returns the stored triple
exactly (provided the level records no duplicate alphas, so the sample is the
unique row at its key): the clamp keeps an in-range alpha unchanged and
`np.interp` hits the grid point. -/
theorem interp_at_exact (sub : List PolarRow) (r : PolarRow) (hmem : r ∈ sub)
    (hnd : ((levelSorted sub r.Re).map (fun s => s.alpha)).Nodup) :
    interp_at sub r.alpha r.Re = ⟨r.CL, r.CD, r.CM⟩ := by
  have hfil : r ∈ sub.filter (fun s => decide (s.Re = r.Re)) :=
    List.mem_filter.mpr ⟨hmem, by simp⟩
  have hdfr : r ∈ levelSorted sub r.Re :=
    ((List.perm_insertionSort alphaLE _).mem_iff).mpr hfil
  have hne : levelSorted sub r.Re ≠ [] := List.ne_nil_of_mem hdfr
  have hmemA : r.alpha ∈ (levelSorted sub r.Re).map (fun s => s.alpha) :=
    List.mem_map_of_mem _ hdfr
  have hmin : aminOf sub r.Re ≤ r.alpha := qmin_le_of_mem hmemA
  have hmax : r.alpha ≤ amaxOf sub r.Re := le_qmax_of_mem hmemA
  have hclip : clipQ r.alpha (aminOf sub r.Re) (amaxOf sub r.Re) = r.alpha := by
    unfold clipQ
    rw [max_eq_left hmin, min_eq_left hmax]
  have hsorted : List.Pairwise alphaLE (levelSorted sub r.Re) :=
    List.sorted_insertionSort alphaLE _
  unfold interp_at
  rw [if_neg hne, hclip, Coeffs.mk.injEq]
  refine ⟨?_, ?_, ?_⟩
  · exact npInterp_exact r.alpha r.CL _ (List.Pairwise.map _ (fun a b h => h) hsorted)
      (by rw [List.map_map]; exact hnd) (List.mem_map_of_mem _ hdfr)
  · exact npInterp_exact r.alpha r.CD _ (List.Pairwise.map _ (fun a b h => h) hsorted)
      (by rw [List.map_map]; exact hnd) (List.mem_map_of_mem _ hdfr)
  · exact npInterp_exact r.alpha r.CM _ (List.Pairwise.map _ (fun a b h => h) hsorted)
      (by rw [List.map_map]; exact hnd) (List.mem_map_of_mem _ hdfr)

set_option maxRecDepth 400000 in
unseal Rat.add Rat.mul Rat.sub Rat.inv Rat.ofScientific in
/-- C3 counterexample: the claim fails as stated.  The stored sample
`("A", Re=2, alpha=0)` with `CL = 1` is queried exactly, yet the interpolator
returns `CL = 10^12/(10^12+1) ≠ 1`: the blend weight at the exact match of
the upper level is `t = 1/(1+1e-12) < 1` (line 61), so the level-1 value `0`
is blended in. -/
theorem c3_counterexample :
    (⟨"A", 2, 0, some 1, some 0, some 0⟩ : PolarRow) ∈ exTbl ∧
    (interpSection exTbl "A" 2 0).CL ≠ some 1 := by
  decide

/-- C3 amended: an exactly matching stored sample is returned verbatim when
its Reynolds is the minimum recorded level for the airfoil (blend weight
exactly `0`), its level records no duplicate alphas, and the neighbouring
bracket level interpolates to finite values; for samples at a recorded
Reynolds above the minimum, the `t = d/(d+1e-12) < 1` blend contaminates the
result (see the counterexample). -/
theorem c3_exact_sample_amended (rows : List PolarRow) (r : PolarRow) (hmem : r ∈ rows)
    (hmin : (distinctRes rows r.airfoil).head? = some r.Re)
    (hnd : ((levelSorted (subFor rows r.airfoil) r.Re).map (fun s => s.alpha)).Nodup)
    (h1 : (interp_at (subFor rows r.airfoil) r.alpha
      (bracketRe (distinctRes rows r.airfoil) r.Re).2).CL.isSome)
    (h2 : (interp_at (subFor rows r.airfoil) r.alpha
      (bracketRe (distinctRes rows r.airfoil) r.Re).2).CD.isSome)
    (h3 : (interp_at (subFor rows r.airfoil) r.alpha
      (bracketRe (distinctRes rows r.airfoil) r.Re).2).CM.isSome) :
    interpSection rows r.airfoil r.Re r.alpha = ⟨r.CL, r.CD, r.CM⟩ := by
  rw [interpSection_min rows r.airfoil r.Re r.alpha hmin h1 h2 h3]
  exact interp_at_exact (subFor rows r.airfoil) r
    (List.mem_filter.mpr ⟨hmem, by simp⟩) hnd

set_option maxRecDepth 400000 in
unseal Rat.add Rat.mul Rat.sub Rat.inv Rat.ofScientific in
/-- Witness for C3 amended: the sample `("A", Re=1, alpha=2) = (3, 4, 5)`
sits at the minimum recorded level of a two-level table and is returned
exactly. -/
theorem c3_witness :
    exC3Row ∈ exC3Tbl ∧
    (distinctRes exC3Tbl "A").head? = some 1 ∧
    ((levelSorted (subFor exC3Tbl "A") 1).map (fun s => s.alpha)).Nodup ∧
    interpSection exC3Tbl "A" 1 2 = ⟨some 3, some 4, some 5⟩ :=
  ⟨by decide, by decide, by decide,
    c3_exact_sample_amended exC3Tbl exC3Row (by decide) (by decide) (by decide)
      (by decide) (by decide) (by decide)⟩

end Xfoil3D
